import Mathlib

/-!
Shallow embedding of `src/src/linux.rs` from the `unshare` crate: the
configuration methods on `Command` (`allow_daemonize`,
`set_parent_death_signal`, `chroot_dir`, `pivot_root`, `unshare`,
`enable_child_signal`) and the small amount of state they touch.

Paths are embedded at the level Rust's `Path::components()` exposes them:
a path is its sequence of components, and on Unix `is_absolute()` holds
exactly when the component sequence starts with the root component.
Methods that `panic!` in Rust are embedded as `Option`-returning
functions (`none` = the call dies, no new state exists).  Methods that
return `&mut Command` (i.e. return `self`) are embedded as returning the
pair `(newState, returnedReceiver)`, which by the source is
`(c', c')`; methods that return `()` in Rust are embedded as plain state
transformers `Command → Command`.
-/

/-- One component of a Unix path, as yielded by Rust's
`Path::components()` (the Windows-only `Prefix` variant is omitted). -/
inductive Component where
  | rootDir
  | curDir
  | parentDir
  | normal (s : String)
deriving DecidableEq

/-- A filesystem path, represented by the component sequence that
`Path::components()` yields for it. -/
structure PathBuf where
  components : List Component
deriving DecidableEq

/-- Rust `Path::is_absolute()` on Unix: the path has a root, i.e. its
component sequence starts with the root component. -/
def PathBuf.is_absolute (p : PathBuf) : Bool :=
  match p.components with
  | Component.rootDir :: _ => true
  | _ => false

/-- The `Namespace` enum of the crate (selector for an isolation kind). -/
inductive Namespace where
  | Mount
  | Uts
  | Ipc
  | User
  | Pid
  | Net
deriving DecidableEq

/-- Linux clone-flag constant `CLONE_NEWNS` (from `nix::sched`). -/
def CLONE_NEWNS : Nat := 0x00020000

/-- Linux clone-flag constant `CLONE_NEWUTS`. -/
def CLONE_NEWUTS : Nat := 0x04000000

/-- Linux clone-flag constant `CLONE_NEWIPC`. -/
def CLONE_NEWIPC : Nat := 0x08000000

/-- Linux clone-flag constant `CLONE_NEWUSER`. -/
def CLONE_NEWUSER : Nat := 0x10000000

/-- Linux clone-flag constant `CLONE_NEWPID`. -/
def CLONE_NEWPID : Nat := 0x20000000

/-- Linux clone-flag constant `CLONE_NEWNET`. -/
def CLONE_NEWNET : Nat := 0x40000000

/-- The `match` inside `Command::unshare` in `linux.rs`, mapping a
`Namespace` to its clone flag. -/
def nsFlag : Namespace → Nat
  | Namespace.Mount => CLONE_NEWNS
  | Namespace.Uts => CLONE_NEWUTS
  | Namespace.Ipc => CLONE_NEWIPC
  | Namespace.User => CLONE_NEWUSER
  | Namespace.Pid => CLONE_NEWPID
  | Namespace.Net => CLONE_NEWNET

/-- The fields of the crate's `Config` struct that `linux.rs` touches:
`death_sig` (a `SigNum`, i.e. a C int), `namespaces` (clone-flag bits,
embedded as a natural number of bits), and `sigchld`. -/
structure Config where
  death_sig : Option Int
  namespaces : Nat
  sigchld : Bool
deriving DecidableEq

/-- The fields of the crate's `Command` struct that `linux.rs` touches:
the inner `config` plus the `chroot_dir` and `pivot_root` plan fields. -/
structure Command where
  config : Config
  chroot_dir : Option PathBuf
  pivot_root : Option (PathBuf × PathBuf × Bool)
deriving DecidableEq

/-- The `SIGKILL` signal number. -/
def SIGKILL : Int := 9

/-- Modelled from the spec: the construction of a fresh `Command` is not
part of `src/src/linux.rs` (only its methods are).  Per the spec's data
model, a default launch configuration has an empty namespace set, no
pivot, no chroot, death-signal policy `Some(SIGKILL)` and child-signal
delivery disabled. -/
def Command.new : Command :=
  { config := { death_sig := some SIGKILL, namespaces := 0, sigchld := false }
    chroot_dir := none
    pivot_root := none }

/-- `Command::allow_daemonize` from `linux.rs`: sets
`self.config.death_sig = None`.  Returns `()` in the source. -/
def allow_daemonize (c : Command) : Command :=
  { c with config := { c.config with death_sig := none } }

/-- `Command::set_parent_death_signal` from `linux.rs`: sets
`self.config.death_sig = Some(sig)`.  Returns `()` in the source. -/
def set_parent_death_signal (c : Command) (sig : Int) : Command :=
  { c with config := { c.config with death_sig := some sig } }

/-- `Command::chroot_dir` from `linux.rs`: panics (here `none`) when the
directory is not absolute, otherwise stores `Some(dir)` in
`self.chroot_dir` and returns `self` (here the pair of the new state and
the returned receiver, which the source makes the same object). -/
def chroot_dir (c : Command) (dir : PathBuf) : Option (Command × Command) :=
  if !dir.is_absolute then
    none
  else
    let c' : Command := { c with chroot_dir := some dir }
    some (c', c')

/-- `Command::pivot_root` from `linux.rs`: panics (here `none`) when
either path is not absolute, or when the zip of the two component
iterators contains a mismatched pair; otherwise stores the triple in
`self.pivot_root` and returns `self`.  Note the check is literally
`new_root.components().zip(put_old.components())` with a panic on the
first unequal pair, and `zip` stops at the shorter sequence. -/
def pivot_root (c : Command) (new_root put_old : PathBuf) (unmount : Bool) :
    Option (Command × Command) :=
  if !new_root.is_absolute then
    none
  else if !put_old.is_absolute then
    none
  else if (new_root.components.zip put_old.components).any
      (fun p => p.1 != p.2) then
    none
  else
    let c' : Command := { c with pivot_root := some (new_root, put_old, unmount) }
    some (c', c')

/-- `Command::unshare` from `linux.rs`: for each namespace in the input
sequence, or the corresponding clone flag into `self.config.namespaces`.
Returns `()` in the source. -/
def unshare (c : Command) (iter : List Namespace) : Command :=
  { c with config := { c.config with
      namespaces := iter.foldl (fun acc ns => acc ||| nsFlag ns) c.config.namespaces } }

/-- `Command::enable_child_signal` from `linux.rs`: sets
`self.config.sigchld = true`.  Returns `()` in the source. -/
def enable_child_signal (c : Command) : Command :=
  { c with config := { c.config with sigchld := true } }

/-- Spec-side predicate, from the spec's words: `new_root` is a
component-wise prefix of `put_old`, comparing components pairwise from
the root; a first mismatch, or `put_old` having fewer components than
`new_root`, is a failure. -/
def compPref : List Component → List Component → Bool
  | [], _ => true
  | _ :: _, [] => false
  | n :: ns, o :: os => n == o && compPref ns os

/-- One exposed configuration operation of `linux.rs`, for stating
properties over arbitrary sequences of calls. -/
inductive Op where
  | allowDaemonize
  | setParentDeathSignal (sig : Int)
  | chrootDir (dir : PathBuf)
  | pivotRoot (new_root put_old : PathBuf) (unmount : Bool)
  | unshareOp (nss : List Namespace)
  | enableChildSignal

/-- Apply one configuration operation; `none` means the call panicked
(the source halts, so no successor state exists). -/
def step (c : Command) : Op → Option Command
  | Op.allowDaemonize => some (allow_daemonize c)
  | Op.setParentDeathSignal s => some (set_parent_death_signal c s)
  | Op.chrootDir d => (chroot_dir c d).map Prod.fst
  | Op.pivotRoot a b u => (pivot_root c a b u).map Prod.fst
  | Op.unshareOp l => some (unshare c l)
  | Op.enableChildSignal => some (enable_child_signal c)

/-- Apply a sequence of configuration operations, stopping at a panic. -/
def run (c : Command) : List Op → Option Command
  | [] => some c
  | op :: ops => (step c op).bind (fun c' => run c' ops)

/-- One of the two death-signal operations, for stating the
last-write-wins property over arbitrary interleavings. -/
inductive DeathOp where
  | allow
  | set (sig : Int)

/-- Apply one death-signal operation. -/
def applyDeathOp (c : Command) : DeathOp → Command
  | DeathOp.allow => allow_daemonize c
  | DeathOp.set s => set_parent_death_signal c s

/-- Apply a sequence of death-signal operations in order. -/
def applyDeathOps (c : Command) (ops : List DeathOp) : Command :=
  ops.foldl applyDeathOp c

/-- The death-signal policy a single operation writes. -/
def deathOpPolicy : DeathOp → Option Int
  | DeathOp.allow => none
  | DeathOp.set s => some s

/-- The path `/a/b`, used as a concrete `new_root`. -/
def nrBug : PathBuf := ⟨[Component.rootDir, Component.normal "a", Component.normal "b"]⟩

/-- The path `/a`, used as a concrete `put_old` that is shorter than
`nrBug`. -/
def poBug : PathBuf := ⟨[Component.rootDir, Component.normal "a"]⟩

/-- The path `/x`, a concrete chroot directory. -/
def dW : PathBuf := ⟨[Component.rootDir, Component.normal "x"]⟩

/-- The path `/a`, a concrete `new_root`. -/
def nrW : PathBuf := ⟨[Component.rootDir, Component.normal "a"]⟩

/-- The path `/a/old`, a concrete `put_old` with `nrW` as a
component-wise prefix. -/
def poW : PathBuf := ⟨[Component.rootDir, Component.normal "a", Component.normal "old"]⟩

/-- The state of a fresh command after `chroot_dir dW`. -/
def ccW : Command := { Command.new with chroot_dir := some dW }

/-- The state of a fresh command after `pivot_root nrW poW false`. -/
def cpW : Command := { Command.new with pivot_root := some (nrW, poW, false) }

theorem compPref_zip_no_mismatch : ∀ ns os : List Component,
    compPref ns os = true →
    (ns.zip os).any (fun p => p.1 != p.2) = false := by
  intro ns
  induction ns with
  | nil => intro os _; rfl
  | cons n t ih =>
    intro os h
    cases os with
    | nil => exact absurd h (by simp [compPref])
    | cons o os' =>
      simp only [compPref, Bool.and_eq_true, beq_iff_eq] at h
      show ((n, o) :: t.zip os').any (fun p => p.1 != p.2) = false
      simp only [List.any_cons, Bool.or_eq_false_iff]
      exact ⟨by simp [h.1], ih os' h.2⟩

theorem foldl_lor_testBit (i : Nat) : ∀ (l : List Namespace) (n : Nat),
    n.testBit i = true →
    (l.foldl (fun acc ns => acc ||| nsFlag ns) n).testBit i = true := by
  intro l
  induction l with
  | nil => intro n h; exact h
  | cons a t ih =>
    intro n h
    exact ih _ (by simp [Nat.testBit_lor, h])

theorem lor_shuffle (a p n u : Nat) :
    (((a ||| p) ||| n) ||| n) ||| u = ((a ||| u) ||| p) ||| n := by
  apply Nat.eq_of_testBit_eq
  intro i
  simp only [Nat.testBit_lor]
  generalize a.testBit i = x
  generalize p.testBit i = y
  generalize n.testBit i = z
  generalize u.testBit i = w
  revert x y z w
  decide

theorem lor_right_idem (a b : Nat) : (a ||| b) ||| b = a ||| b := by
  apply Nat.eq_of_testBit_eq
  intro i
  simp only [Nat.testBit_lor]
  generalize a.testBit i = x
  generalize b.testBit i = y
  revert x y
  decide

theorem step_sigchld_mono (c : Command) (op : Op) (c' : Command)
    (h : step c op = some c') (hs : c.config.sigchld = true) :
    c'.config.sigchld = true := by
  cases op with
  | allowDaemonize =>
    simp [step] at h
    subst h
    simpa [allow_daemonize] using hs
  | setParentDeathSignal s =>
    simp [step] at h
    subst h
    simpa [set_parent_death_signal] using hs
  | chrootDir d =>
    simp [step, chroot_dir] at h
    obtain ⟨-, h2⟩ := h
    subst h2
    simpa using hs
  | pivotRoot a b u =>
    simp [step, pivot_root] at h
    obtain ⟨-, -, -, h4⟩ := h
    subst h4
    simpa using hs
  | unshareOp l =>
    simp [step] at h
    subst h
    simpa [unshare] using hs
  | enableChildSignal =>
    simp [step] at h
    subst h
    simp [enable_child_signal]

theorem run_sigchld_mono : ∀ (ops : List Op) (c c' : Command),
    run c ops = some c' → c.config.sigchld = true → c'.config.sigchld = true := by
  intro ops
  induction ops with
  | nil =>
    intro c c' h hs
    simp [run] at h
    subst h
    exact hs
  | cons op t ih =>
    intro c c' h hs
    simp only [run, Option.bind_eq_some] at h
    obtain ⟨c1, h1, h2⟩ := h
    exact ih c1 c' h2 (step_sigchld_mono c op c1 h1 hs)

/-- C1: the claim says `pivot_root` fails fatally exactly when `new_root`
is not a component-wise prefix of `put_old`, with a `put_old` having
fewer components than `new_root` counting as a failure.  The code
disagrees: its prefix check zips the two component iterators and the zip
stops at the shorter one, so for `new_root = /a/b`, `put_old = /a` (both
absolute, `new_root` not a prefix of `put_old`) the call succeeds and
stores the pivot triple, contradicting the claim and the function's own
doc comment. -/
theorem C1_short_put_old_accepted :
    nrBug.is_absolute = true
  ∧ poBug.is_absolute = true
  ∧ compPref nrBug.components poBug.components = false
  ∧ pivot_root Command.new nrBug poBug false
      = some ({ Command.new with pivot_root := some (nrBug, poBug, false) },
              { Command.new with pivot_root := some (nrBug, poBug, false) }) := by
  refine ⟨rfl, rfl, by decide, by decide⟩

/-- C2: `chroot_dir` fails fatally exactly when the directory is not
absolute; `pivot_root` fails fatally when either path is not absolute;
with absolute inputs (and the component-wise prefix relation for pivot)
each call succeeds, overwrites any previously stored value, and
repeating the identical call is idempotent. -/
theorem C2_path_validation (c : Command) (d nr po : PathBuf) (u : Bool)
    (hd : d.is_absolute = true) (hnr : nr.is_absolute = true)
    (hpo : po.is_absolute = true)
    (hpref : compPref nr.components po.components = true) :
    (∀ d' : PathBuf, chroot_dir c d' = none ↔ d'.is_absolute = false)
  ∧ (∀ (nr' po' : PathBuf) (u' : Bool),
        nr'.is_absolute = false ∨ po'.is_absolute = false →
        pivot_root c nr' po' u' = none)
  ∧ (∃ c', chroot_dir c d = some (c', c') ∧ c'.chroot_dir = some d
        ∧ chroot_dir c' d = some (c', c'))
  ∧ (∃ c', pivot_root c nr po u = some (c', c') ∧ c'.pivot_root = some (nr, po, u)
        ∧ pivot_root c' nr po u = some (c', c')) := by
  have hcond : (nr.components.zip po.components).any (fun p => p.1 != p.2) = false :=
    compPref_zip_no_mismatch _ _ hpref
  refine ⟨?_, ?_, ?_, ?_⟩
  · intro d'
    cases hcase : d'.is_absolute <;> simp [chroot_dir, hcase]
  · intro nr' po' u' habs
    cases habs with
    | inl h => simp [pivot_root, h]
    | inr h => cases hn : nr'.is_absolute <;> simp [pivot_root, h, hn]
  · refine ⟨{ c with chroot_dir := some d }, ?_, rfl, ?_⟩ <;> simp [chroot_dir, hd]
  · refine ⟨{ c with pivot_root := some (nr, po, u) }, ?_, rfl, ?_⟩ <;>
      (unfold pivot_root; rw [hnr, hpo, hcond]; simp)

theorem C2_witness :
    (∀ d' : PathBuf, chroot_dir Command.new d' = none ↔ d'.is_absolute = false)
  ∧ (∀ (nr' po' : PathBuf) (u' : Bool),
        nr'.is_absolute = false ∨ po'.is_absolute = false →
        pivot_root Command.new nr' po' u' = none)
  ∧ (∃ c', chroot_dir Command.new dW = some (c', c') ∧ c'.chroot_dir = some dW
        ∧ chroot_dir c' dW = some (c', c'))
  ∧ (∃ c', pivot_root Command.new nrW poW false = some (c', c')
        ∧ c'.pivot_root = some (nrW, poW, false)
        ∧ pivot_root c' nrW poW false = some (c', c')) :=
  C2_path_validation Command.new dW nrW poW false rfl rfl rfl (by decide)

/-- C3: with absolute paths related by the component-wise prefix
relation, `pivot_root` succeeds and stores exactly the input triple with
the unmount flag unmodified; a later `pivot_root` replaces the stored
pivot, and a later `chroot_dir` stores its own value without touching
the pivot (at most one of each is ever held, since each is a single
optional field). -/
theorem C3_pivot_stores_exact_triple (c : Command) (nr po nr2 po2 d : PathBuf)
    (u u2 : Bool)
    (hnr : nr.is_absolute = true) (hpo : po.is_absolute = true)
    (hpref : compPref nr.components po.components = true)
    (hnr2 : nr2.is_absolute = true) (hpo2 : po2.is_absolute = true)
    (hpref2 : compPref nr2.components po2.components = true)
    (hd : d.is_absolute = true) :
    ∃ c', pivot_root c nr po u = some (c', c')
      ∧ c'.pivot_root = some (nr, po, u)
      ∧ (∃ c'', pivot_root c' nr2 po2 u2 = some (c'', c'')
            ∧ c''.pivot_root = some (nr2, po2, u2))
      ∧ (∃ c3, chroot_dir c' d = some (c3, c3) ∧ c3.chroot_dir = some d
            ∧ c3.pivot_root = some (nr, po, u)) := by
  have hcond : (nr.components.zip po.components).any (fun p => p.1 != p.2) = false :=
    compPref_zip_no_mismatch _ _ hpref
  have hcond2 : (nr2.components.zip po2.components).any (fun p => p.1 != p.2) = false :=
    compPref_zip_no_mismatch _ _ hpref2
  refine ⟨{ c with pivot_root := some (nr, po, u) }, ?_, rfl, ?_, ?_⟩
  · unfold pivot_root
    rw [hnr, hpo, hcond]
    simp
  · refine ⟨{ c with pivot_root := some (nr2, po2, u2) }, ?_, rfl⟩
    unfold pivot_root
    rw [hnr2, hpo2, hcond2]
    simp
  · refine ⟨{ c with chroot_dir := some d, pivot_root := some (nr, po, u) }, ?_, rfl, rfl⟩
    simp [chroot_dir, hd]

theorem C3_witness :
    ∃ c', pivot_root Command.new nrW poW false = some (c', c')
      ∧ c'.pivot_root = some (nrW, poW, false)
      ∧ (∃ c'', pivot_root c' nrW poW true = some (c'', c'')
            ∧ c''.pivot_root = some (nrW, poW, true))
      ∧ (∃ c3, chroot_dir c' dW = some (c3, c3) ∧ c3.chroot_dir = some dW
            ∧ c3.pivot_root = some (nrW, poW, false)) :=
  C3_pivot_stores_exact_triple Command.new nrW poW nrW poW dW false true
    rfl rfl (by decide) rfl rfl (by decide) rfl

/-- C4: namespace accumulation is commutative and idempotent: unsharing
`{Pid, Net}` then `{Net, Uts}` yields the same namespace set as a single
call with `{Uts, Pid, Net}`; repeating the same kind (in one call or
across calls) has no additional effect; the empty input is a no-op; and
the operation is total (it always yields a successor state). -/
theorem C4_unshare_comm_idem (c : Command) (k : Namespace) (l : List Namespace) :
    (unshare (unshare c [Namespace.Pid, Namespace.Net])
        [Namespace.Net, Namespace.Uts]).config.namespaces
      = (unshare c [Namespace.Uts, Namespace.Pid, Namespace.Net]).config.namespaces
  ∧ (unshare c [k, k]).config.namespaces = (unshare c [k]).config.namespaces
  ∧ unshare (unshare c [k]) [k] = unshare c [k]
  ∧ unshare c [] = c
  ∧ step c (Op.unshareOp l) = some (unshare c l) := by
  refine ⟨?_, ?_, ?_, rfl, rfl⟩
  · simp only [unshare, List.foldl]
    exact lor_shuffle _ _ _ _
  · simp only [unshare, List.foldl]
    exact lor_right_idem _ _
  · simp only [unshare, List.foldl]
    rw [lor_right_idem]

/-- C5: the namespace set grows monotonically: every configuration
operation that yields a successor state preserves every bit already set
in `config.namespaces`; no exposed operation removes a previously
requested namespace kind. -/
theorem C5_namespaces_monotone (c : Command) (op : Op) (c' : Command) (i : Nat)
    (h : step c op = some c')
    (hb : c.config.namespaces.testBit i = true) :
    c'.config.namespaces.testBit i = true := by
  cases op with
  | allowDaemonize =>
    simp [step] at h
    subst h
    simpa [allow_daemonize] using hb
  | setParentDeathSignal s =>
    simp [step] at h
    subst h
    simpa [set_parent_death_signal] using hb
  | chrootDir d =>
    simp [step, chroot_dir] at h
    obtain ⟨-, h2⟩ := h
    subst h2
    simpa using hb
  | pivotRoot a b u =>
    simp [step, pivot_root] at h
    obtain ⟨-, -, -, h4⟩ := h
    subst h4
    simpa using hb
  | unshareOp l =>
    simp [step] at h
    subst h
    simpa [unshare] using foldl_lor_testBit i l c.config.namespaces hb
  | enableChildSignal =>
    simp [step] at h
    subst h
    simpa [enable_child_signal] using hb

theorem C5_witness :
    (allow_daemonize (unshare Command.new [Namespace.Pid])).config.namespaces.testBit 29
      = true :=
  C5_namespaces_monotone (unshare Command.new [Namespace.Pid]) Op.allowDaemonize
    (allow_daemonize (unshare Command.new [Namespace.Pid])) 29 rfl (by decide)

/-- C6: the death-signal policy is last-write-wins: `allow_daemonize`
sets it to `none`, `set_parent_death_signal sig` sets it to `some sig`,
and after any interleaving of the two operations the final policy is
exactly the one the last operation wrote. -/
theorem C6_death_signal_last_write_wins (c : Command) (s : Int)
    (ops : List DeathOp) (op : DeathOp) :
    (allow_daemonize c).config.death_sig = none
  ∧ (set_parent_death_signal c s).config.death_sig = some s
  ∧ (applyDeathOps c (ops ++ [op])).config.death_sig = deathOpPolicy op := by
  refine ⟨rfl, rfl, ?_⟩
  rw [applyDeathOps, List.foldl_append]
  cases op with
  | allow => rfl
  | set s2 => rfl

/-- C7: the child-signal policy is a one-directional toggle:
`enable_child_signal` sets the flag to `true`, and after that no
sequence of exposed configuration operations that yields a successor
state ever brings it back to `false`. -/
theorem C7_sigchld_one_directional (c : Command) (ops : List Op) (c' : Command)
    (h : run (enable_child_signal c) ops = some c') :
    (enable_child_signal c).config.sigchld = true ∧ c'.config.sigchld = true :=
  ⟨rfl, run_sigchld_mono ops _ c' h rfl⟩

theorem C7_witness :
    (enable_child_signal Command.new).config.sigchld = true
  ∧ (allow_daemonize (enable_child_signal Command.new)).config.sigchld = true :=
  C7_sigchld_one_directional Command.new [Op.allowDaemonize]
    (allow_daemonize (enable_child_signal Command.new)) rfl

/-- C8: a freshly created launch configuration has an empty namespace
set, no pivot, no chroot, death-signal policy `some SIGKILL`, and
child-signal delivery disabled (the construction itself is modelled
from the spec, as it is outside `linux.rs`). -/
theorem C8_default_configuration :
    Command.new.config.namespaces = 0
  ∧ Command.new.pivot_root = none
  ∧ Command.new.chroot_dir = none
  ∧ Command.new.config.death_sig = some SIGKILL
  ∧ Command.new.config.sigchld = false :=
  ⟨rfl, rfl, rfl, rfl, rfl⟩

/-- C9: the four sub-policies are mutually independent: `unshare` changes
only the namespace bits; `chroot_dir` changes only the chroot field;
`pivot_root` changes only the pivot field; `allow_daemonize` and
`set_parent_death_signal` change only the death-signal policy;
`enable_child_signal` changes only the sigchld flag; every other field
is left unchanged by each operation. -/
theorem C9_operations_are_independent (c cc cp : Command)
    (d nr po : PathBuf) (u : Bool) (s : Int) (l : List Namespace)
    (h1 : chroot_dir c d = some (cc, cc))
    (h2 : pivot_root c nr po u = some (cp, cp)) :
    ((unshare c l).config.death_sig = c.config.death_sig
      ∧ (unshare c l).config.sigchld = c.config.sigchld
      ∧ (unshare c l).chroot_dir = c.chroot_dir
      ∧ (unshare c l).pivot_root = c.pivot_root)
  ∧ (cc.config = c.config ∧ cc.pivot_root = c.pivot_root)
  ∧ (cp.config = c.config ∧ cp.chroot_dir = c.chroot_dir)
  ∧ ((allow_daemonize c).config.namespaces = c.config.namespaces
      ∧ (allow_daemonize c).config.sigchld = c.config.sigchld
      ∧ (allow_daemonize c).chroot_dir = c.chroot_dir
      ∧ (allow_daemonize c).pivot_root = c.pivot_root)
  ∧ ((set_parent_death_signal c s).config.namespaces = c.config.namespaces
      ∧ (set_parent_death_signal c s).config.sigchld = c.config.sigchld
      ∧ (set_parent_death_signal c s).chroot_dir = c.chroot_dir
      ∧ (set_parent_death_signal c s).pivot_root = c.pivot_root)
  ∧ ((enable_child_signal c).config.death_sig = c.config.death_sig
      ∧ (enable_child_signal c).config.namespaces = c.config.namespaces
      ∧ (enable_child_signal c).chroot_dir = c.chroot_dir
      ∧ (enable_child_signal c).pivot_root = c.pivot_root) := by
  simp [chroot_dir] at h1
  simp [pivot_root] at h2
  obtain ⟨-, h1'⟩ := h1
  obtain ⟨-, -, -, h2'⟩ := h2
  subst h1'
  subst h2'
  exact ⟨⟨rfl, rfl, rfl, rfl⟩, ⟨rfl, rfl⟩, ⟨rfl, rfl⟩,
    ⟨rfl, rfl, rfl, rfl⟩, ⟨rfl, rfl, rfl, rfl⟩, ⟨rfl, rfl, rfl, rfl⟩⟩

theorem C9_witness :
    ((unshare Command.new [Namespace.Net]).config.death_sig
        = Command.new.config.death_sig
      ∧ (unshare Command.new [Namespace.Net]).config.sigchld
        = Command.new.config.sigchld
      ∧ (unshare Command.new [Namespace.Net]).chroot_dir = Command.new.chroot_dir
      ∧ (unshare Command.new [Namespace.Net]).pivot_root = Command.new.pivot_root)
  ∧ (ccW.config = Command.new.config ∧ ccW.pivot_root = Command.new.pivot_root)
  ∧ (cpW.config = Command.new.config ∧ cpW.chroot_dir = Command.new.chroot_dir)
  ∧ ((allow_daemonize Command.new).config.namespaces
        = Command.new.config.namespaces
      ∧ (allow_daemonize Command.new).config.sigchld = Command.new.config.sigchld
      ∧ (allow_daemonize Command.new).chroot_dir = Command.new.chroot_dir
      ∧ (allow_daemonize Command.new).pivot_root = Command.new.pivot_root)
  ∧ ((set_parent_death_signal Command.new 15).config.namespaces
        = Command.new.config.namespaces
      ∧ (set_parent_death_signal Command.new 15).config.sigchld
        = Command.new.config.sigchld
      ∧ (set_parent_death_signal Command.new 15).chroot_dir
        = Command.new.chroot_dir
      ∧ (set_parent_death_signal Command.new 15).pivot_root
        = Command.new.pivot_root)
  ∧ ((enable_child_signal Command.new).config.death_sig
        = Command.new.config.death_sig
      ∧ (enable_child_signal Command.new).config.namespaces
        = Command.new.config.namespaces
      ∧ (enable_child_signal Command.new).chroot_dir = Command.new.chroot_dir
      ∧ (enable_child_signal Command.new).pivot_root = Command.new.pivot_root) :=
  C9_operations_are_independent Command.new ccW cpW dW nrW poW false 15
    [Namespace.Net] (by decide) (by decide)

/-- C10: `chroot_dir` and `pivot_root` return the very receiver they
mutated (the source returns `self`), so a fluent chain of these calls
mutates one single configuration object: binding the next call on the
returned value is the same as applying it to the updated state.  The
remaining operations return no value (they are plain state updates in
this embedding). -/
theorem C10_fluent_returns_receiver (c s1 r1 s2 r2 : Command)
    (d nr po : PathBuf) (u : Bool)
    (h1 : chroot_dir c d = some (s1, r1))
    (h2 : pivot_root c nr po u = some (s2, r2)) :
    r1 = s1 ∧ r2 = s2
  ∧ (pivot_root c nr po u).bind (fun pr => chroot_dir pr.2 d)
      = chroot_dir s2 d := by
  have h2' := h2
  simp [chroot_dir] at h1
  simp [pivot_root] at h2
  obtain ⟨-, h1a, h1b⟩ := h1
  obtain ⟨-, -, -, h2a, h2b⟩ := h2
  subst h1a
  subst h1b
  subst h2a
  subst h2b
  exact ⟨rfl, rfl, by rw [h2']; rfl⟩

theorem C10_witness :
    ccW = ccW ∧ cpW = cpW
  ∧ (pivot_root Command.new nrW poW false).bind (fun pr => chroot_dir pr.2 dW)
      = chroot_dir cpW dW :=
  C10_fluent_returns_receiver Command.new ccW ccW cpW cpW dW nrW poW false
    (by decide) (by decide)
